import Mathlib

/-!
Verification of the tic-tac-toe game engine (React frontend, `App.js`).

The source is shallowly embedded: JS arrays of cells become `List Cell`
(with `cellAt` reading out of range as `none`, matching JS `undefined`
being falsy), React component state becomes the `GameState` structure,
and the score-updating `useEffect` is modelled explicitly by
`runScoreEffect`, which re-runs the effect body exactly when its
dependency tuple `(gameOver, winnerInfo.winner)` differs from the value
recorded at the last run — React's dependency-comparison semantics.
-/

/-- Player marks, JS strings `'X'` and `'O'`. -/
inductive Mark where
  | X : Mark
  | O : Mark
deriving DecidableEq, Repr

instance : Fintype Mark :=
  ⟨⟨{Mark.X, Mark.O}, by decide⟩, by intro x; cases x <;> decide⟩

/-- A board cell: `null` in JS is `none`, a placed mark is `some m`. -/
abbrev Cell := Option Mark

/-- A board is the JS array of 9 cells (indices 0..8, row-major). -/
abbrev Board := List Cell

/-- Reading `squares[i]` in JS: out-of-range reads give `undefined`,
which behaves like `null` (falsy), hence the default `none`. -/
def cellAt (squares : Board) (i : Nat) : Cell :=
  squares.getD i none

/-- A winning triple of cell indices. -/
abbrev Triple := Nat × Nat × Nat

/-- The 8 winning lines, in the source's fixed order:
3 rows, 3 columns, 2 diagonals (`LINES` in App.js). -/
def LINES : List Triple :=
  [(0, 1, 2), (3, 4, 5), (6, 7, 8),
   (0, 3, 6), (1, 4, 7), (2, 5, 8),
   (0, 4, 8), (2, 4, 6)]

/-- Result of `calculateWinner`: `{winner, line}`. -/
structure WinResult where
  winner : Option Mark
  line : Option Triple
deriving DecidableEq, Repr

/-- The loop body of `calculateWinner`: scan the given lines in order,
returning on the first line `[a,b,c]` with
`squares[a] && squares[a] === squares[b] && squares[a] === squares[c]`. -/
def calcWinnerAux (squares : Board) : List Triple → WinResult
  | [] => { winner := none, line := none }
  | (a, b, c) :: rest =>
    if (cellAt squares a).isSome && (cellAt squares a == cellAt squares b)
        && (cellAt squares a == cellAt squares c) then
      { winner := cellAt squares a, line := some (a, b, c) }
    else
      calcWinnerAux squares rest

/-- `calculateWinner(squares)` from App.js. -/
def calculateWinner (squares : Board) : WinResult :=
  calcWinnerAux squares LINES

/-- Spec-side predicate: the three cells of line `l` are non-Empty and
identical (they all hold one common mark). -/
def specLineWon (squares : Board) (l : Triple) : Bool :=
  decide (∃ m : Mark, cellAt squares l.1 = some m ∧
    cellAt squares l.2.1 = some m ∧ cellAt squares l.2.2 = some m)

/-- Spec-side description of the win detector: the first line (in the
canonical `LINES` order) whose cells are non-Empty and identical gives
the winner; otherwise `{None, None}`. -/
def winByFirstLine (squares : Board) : WinResult :=
  match LINES.find? (specLineWon squares) with
  | some l => { winner := cellAt squares l.1, line := some l }
  | none => { winner := none, line := none }

/-- The source's per-line test coincides with "non-Empty and identical". -/
theorem lineTest_eq_specLineWon (squares : Board) (a b c : Nat) :
    ((cellAt squares a).isSome && (cellAt squares a == cellAt squares b)
      && (cellAt squares a == cellAt squares c)) = specLineWon squares (a, b, c) := by
  show _ = decide (∃ m : Mark, cellAt squares a = some m ∧
    cellAt squares b = some m ∧ cellAt squares c = some m)
  generalize cellAt squares a = va
  generalize cellAt squares b = vb
  generalize cellAt squares c = vc
  revert va vb vc
  decide

/-- The scanning loop is the first-match search over its line list. -/
theorem calcWinnerAux_eq_find (squares : Board) (ls : List Triple) :
    calcWinnerAux squares ls =
      (match ls.find? (specLineWon squares) with
       | some l => { winner := cellAt squares l.1, line := some l }
       | none => { winner := none, line := none }) := by
  induction ls with
  | nil => rfl
  | cons hd rest ih =>
    obtain ⟨a, b, c⟩ := hd
    rw [calcWinnerAux, List.find?_cons]
    cases hp : specLineWon squares (a, b, c) with
    | false =>
      rw [if_neg (by rw [lineTest_eq_specLineWon squares a b c, hp]; simp), ih]
    | true =>
      rw [if_pos (by rw [lineTest_eq_specLineWon squares a b c]; exact hp)]

/-- Claim C4: `calculateWinner` checks the 8 winning triples in the fixed
canonical order (rows, then columns, then diagonals) and returns the first
triple whose three cells are non-Empty and identical, together with that
mark as winner; `{none, none}` when no triple matches (so ties resolve to
the lowest-indexed line of the enumeration). In particular, a board that
holds one mark on exactly one winning line and nothing else yields that
mark and that triple. -/
theorem C4_calculateWinner_canonical :
    (∀ squares : Board, calculateWinner squares = winByFirstLine squares) ∧
    (∀ l, l ∈ LINES → ∀ m : Mark,
      calculateWinner ((List.range 9).map (fun i =>
        if i = l.1 ∨ i = l.2.1 ∨ i = l.2.2 then some m else none)) =
      { winner := some m, line := some l }) := by
  constructor
  · intro squares
    rw [calculateWinner, winByFirstLine, calcWinnerAux_eq_find]
  · decide

/-- Witness for C4 at a concrete input: the board holding X exactly on the
first row is detected as a win for X on line (0,1,2). -/
theorem C4_calculateWinner_canonical_witness :
    calculateWinner ((List.range 9).map (fun i =>
      if i = ((0, 1, 2) : Triple).1 ∨ i = ((0, 1, 2) : Triple).2.1
        ∨ i = ((0, 1, 2) : Triple).2.2 then some Mark.X else none)) =
    { winner := some Mark.X, line := some (0, 1, 2) } :=
  C4_calculateWinner_canonical.2 (0, 1, 2) (by decide) Mark.X

/-- Claim C10: the two fields of `calculateWinner`'s result are coupled —
`winner` is `none` iff `line` is `none` — and when `winner = some m` with
`line = some l`, the triple `l` is one of the 8 canonical lines and all
three of its cells in the input board hold `m`. -/
theorem C10_winner_line_coupled (squares : Board) :
    ((calculateWinner squares).winner = none ↔ (calculateWinner squares).line = none) ∧
    (∀ (m : Mark) (l : Triple),
      (calculateWinner squares).winner = some m →
      (calculateWinner squares).line = some l →
      l ∈ LINES ∧ cellAt squares l.1 = some m ∧
        cellAt squares l.2.1 = some m ∧ cellAt squares l.2.2 = some m) := by
  rw [calculateWinner, calcWinnerAux_eq_find]
  rcases hf : LINES.find? (specLineWon squares) with _ | l
  · exact ⟨by simp, by intro m l hw; simp at hw⟩
  · have hmem : l ∈ LINES := List.mem_of_find?_eq_some hf
    have hp : specLineWon squares l = true := List.find?_some hf
    rw [specLineWon, decide_eq_true_eq] at hp
    obtain ⟨m, hm1, hm2, hm3⟩ := hp
    simp only
    refine ⟨by simp [hm1], ?_⟩
    intro m' l' hw hl
    rw [hm1] at hw
    simp only [Option.some.injEq] at hw hl
    subst hl
    subst hw
    exact ⟨hmem, hm1, hm2, hm3⟩

/-- Witness for C10 at a concrete input: a board whose main diagonal is
all O is recognised with the coupling facts instantiated at `(0,4,8)`. -/
theorem C10_winner_line_coupled_witness :
    ((0, 4, 8) : Triple) ∈ LINES ∧
      cellAt [some Mark.O, none, none, none, some Mark.O, none, none, none, some Mark.O]
        ((0, 4, 8) : Triple).1 = some Mark.O ∧
      cellAt [some Mark.O, none, none, none, some Mark.O, none, none, none, some Mark.O]
        ((0, 4, 8) : Triple).2.1 = some Mark.O ∧
      cellAt [some Mark.O, none, none, none, some Mark.O, none, none, none, some Mark.O]
        ((0, 4, 8) : Triple).2.2 = some Mark.O :=
  (C10_winner_line_coupled
    [some Mark.O, none, none, none, some Mark.O, none, none, none, some Mark.O]).2
    Mark.O (0, 4, 8) (by decide) (by decide)

/-- The opposing mark (`player === 'X' ? 'O' : 'X'` in `chooseBestMove`). -/
def oppositeMark : Mark → Mark
  | Mark.X => Mark.O
  | Mark.O => Mark.X

/-- The loop body of `findWinningMove(squares, player)` from App.js: scan
the lines; on the first line where exactly 2 cells hold `player`'s mark and
exactly one cell is empty, return that empty index; otherwise `-1`. -/
def findWinningMoveAux (squares : Board) (player : Mark) : List Triple → Int
  | [] => -1
  | (a, b, c) :: rest =>
    let lineVals := [cellAt squares a, cellAt squares b, cellAt squares c]
    let filledByPlayer := (lineVals.filter (fun v => v == some player)).length
    let emptyIndices := [a, b, c].filter (fun idx => cellAt squares idx == none)
    if filledByPlayer == 2 && emptyIndices.length == 1 then
      ((emptyIndices.headD 0 : Nat) : Int)
    else
      findWinningMoveAux squares player rest

/-- `findWinningMove(squares, player)` from App.js. -/
def findWinningMove (squares : Board) (player : Mark) : Int :=
  findWinningMoveAux squares player LINES

/-- `randomPick(arr)` from App.js returns `arr[Math.floor(Math.random() *
arr.length)]`; the random draw is modelled by the extra parameter `r`,
reduced mod the length so every element is a possible outcome. -/
def randomPick (r : Nat) (arr : List Nat) : Nat :=
  arr.getD (r % arr.length) 0

/-- The `corners` list of `chooseBestMove`: empty cells among {0,2,6,8}. -/
def emptyCorners (squares : Board) : List Nat :=
  [0, 2, 6, 8].filter (fun i => cellAt squares i == none)

/-- The `sides` list of `chooseBestMove`: empty cells among {1,3,5,7}. -/
def emptySides (squares : Board) : List Nat :=
  [1, 3, 5, 7].filter (fun i => cellAt squares i == none)

/-- `chooseBestMove(squares, player)` from App.js (win, block, center,
corner, side, else -1); its single-use `const` bindings are inlined. -/
def chooseBestMove (r : Nat) (squares : Board) (player : Mark) : Int :=
  if findWinningMove squares player != -1 then
    findWinningMove squares player
  else if findWinningMove squares (oppositeMark player) != -1 then
    findWinningMove squares (oppositeMark player)
  else if cellAt squares 4 == none then
    4
  else if (emptyCorners squares).length != 0 then
    ((randomPick r (emptyCorners squares) : Nat) : Int)
  else if (emptySides squares).length != 0 then
    ((randomPick r (emptySides squares) : Nat) : Int)
  else
    -1

/-- Spec-side win/block sub-check for one line: count the cells already
holding `player`'s mark; if exactly 2 of 3 are held and the third is Empty,
that Empty index is the candidate. -/
def specCandidate (squares : Board) (player : Mark) (l : Triple) : Option Nat :=
  if [cellAt squares l.1, cellAt squares l.2.1, cellAt squares l.2.2].count (some player) = 2 ∧
      ([l.1, l.2.1, l.2.2].filter (fun i => cellAt squares i == none)).length = 1 then
    ([l.1, l.2.1, l.2.2].filter (fun i => cellAt squares i == none)).head?
  else
    none

/-- Spec-side search: the first line candidate in canonical line order. -/
def selectSpec (squares : Board) (player : Mark) : Option Nat :=
  LINES.findSome? (specCandidate squares player)

/-- The source's scan equals the first-candidate search over its lines. -/
theorem findWinningMoveAux_eq_findSome (squares : Board) (player : Mark) (ls : List Triple) :
    findWinningMoveAux squares player ls =
      (match ls.findSome? (specCandidate squares player) with
       | some i => (i : Int)
       | none => -1) := by
  induction ls with
  | nil => rfl
  | cons hd rest ih =>
    obtain ⟨a, b, c⟩ := hd
    rw [findWinningMoveAux, List.findSome?_cons]
    have hcnt : [cellAt squares a, cellAt squares b, cellAt squares c].count (some player) =
        ([cellAt squares a, cellAt squares b, cellAt squares c].filter
          (fun v => v == some player)).length :=
      List.countP_eq_length_filter _ _
    have hsc : specCandidate squares player (a, b, c) =
        (if ([cellAt squares a, cellAt squares b, cellAt squares c].filter
              (fun v => v == some player)).length = 2 ∧
            ([a, b, c].filter (fun idx => cellAt squares idx == none)).length = 1 then
          ([a, b, c].filter (fun idx => cellAt squares idx == none)).head?
        else none) := by
      show (if [cellAt squares a, cellAt squares b, cellAt squares c].count (some player) = 2 ∧
          ([a, b, c].filter (fun i => cellAt squares i == none)).length = 1 then
          ([a, b, c].filter (fun i => cellAt squares i == none)).head? else none) = _
      rw [hcnt]
    by_cases h : ([cellAt squares a, cellAt squares b, cellAt squares c].filter
          (fun v => v == some player)).length = 2 ∧
        ([a, b, c].filter (fun idx => cellAt squares idx == none)).length = 1
    · obtain ⟨e, he⟩ := List.length_eq_one.mp h.2
      rw [hsc, if_pos h, if_pos (by simp [h.1, h.2]), he]
      rfl
    · rw [hsc, if_neg h, if_neg (by simpa using h), ih]

/-- `findWinningMove` is the spec's first-match win/block search, with
`-1` encoding "no candidate". -/
theorem findWinningMove_eq_selectSpec (squares : Board) (player : Mark) :
    findWinningMove squares player =
      (match selectSpec squares player with
       | some i => (i : Int)
       | none => -1) :=
  findWinningMoveAux_eq_findSome squares player LINES

/-- `randomPick` always returns an element of a nonempty list. -/
theorem randomPick_mem (r : Nat) (arr : List Nat) (h : arr ≠ []) :
    randomPick r arr ∈ arr := by
  have hlt : r % arr.length < arr.length :=
    Nat.mod_lt _ (List.length_pos.mpr h)
  rw [randomPick, List.getD_eq_getElem?_getD, List.getElem?_eq_getElem hlt]
  exact List.getElem_mem hlt

/-- A line candidate is always an empty cell. -/
theorem specCandidate_some_empty (squares : Board) (player : Mark) (l : Triple) (i : Nat)
    (h : specCandidate squares player l = some i) : cellAt squares i = none := by
  rw [specCandidate] at h
  split at h
  · have hi : i ∈ [l.1, l.2.1, l.2.2].filter (fun j => cellAt squares j == none) :=
      List.mem_of_mem_head? (Option.mem_def.mpr h)
    simpa using (List.mem_filter.mp hi).2
  · simp at h

/-- The first-match search only produces empty cells. -/
theorem selectSpec_some_empty (squares : Board) (player : Mark) (i : Nat)
    (h : selectSpec squares player = some i) : cellAt squares i = none := by
  obtain ⟨l, _, hc⟩ := List.exists_of_findSome?_eq_some h
  exact specCandidate_some_empty squares player l i hc

/-- Priority 1: a win-now candidate for the mover is played. -/
theorem chooseBestMove_win (r : Nat) (squares : Board) (player : Mark) (i : Nat)
    (h : selectSpec squares player = some i) :
    chooseBestMove r squares player = (i : Int) := by
  have hne : ((i : Int) != -1) = true := by simp
  rw [chooseBestMove, findWinningMove_eq_selectSpec, h]
  rw [if_pos hne]

/-- Priority 2: otherwise a win-now candidate of the opponent is blocked. -/
theorem chooseBestMove_block (r : Nat) (squares : Board) (player : Mark) (i : Nat)
    (h1 : selectSpec squares player = none)
    (h2 : selectSpec squares (oppositeMark player) = some i) :
    chooseBestMove r squares player = (i : Int) := by
  have hne : ((i : Int) != -1) = true := by simp
  rw [chooseBestMove, findWinningMove_eq_selectSpec, h1,
    findWinningMove_eq_selectSpec, h2]
  rw [if_neg (by simp), if_pos hne]

/-- Priority 3: otherwise the empty center is taken. -/
theorem chooseBestMove_center (r : Nat) (squares : Board) (player : Mark)
    (h1 : selectSpec squares player = none)
    (h2 : selectSpec squares (oppositeMark player) = none)
    (h4 : cellAt squares 4 = none) :
    chooseBestMove r squares player = 4 := by
  rw [chooseBestMove, findWinningMove_eq_selectSpec, h1,
    findWinningMove_eq_selectSpec, h2]
  rw [if_neg (by simp), if_neg (by simp), if_pos (by simp [h4])]

/-- Priority 4: otherwise some empty corner is taken. -/
theorem chooseBestMove_corner (r : Nat) (squares : Board) (player : Mark)
    (h1 : selectSpec squares player = none)
    (h2 : selectSpec squares (oppositeMark player) = none)
    (h4 : cellAt squares 4 ≠ none)
    (hc : emptyCorners squares ≠ []) :
    chooseBestMove r squares player = ((randomPick r (emptyCorners squares) : Nat) : Int) := by
  rw [chooseBestMove, findWinningMove_eq_selectSpec, h1,
    findWinningMove_eq_selectSpec, h2]
  rw [if_neg (by simp), if_neg (by simp), if_neg (by simpa using h4),
    if_pos (by simpa [List.length_eq_zero] using hc)]

/-- Priority 5: otherwise some empty side is taken. -/
theorem chooseBestMove_side (r : Nat) (squares : Board) (player : Mark)
    (h1 : selectSpec squares player = none)
    (h2 : selectSpec squares (oppositeMark player) = none)
    (h4 : cellAt squares 4 ≠ none)
    (hc : emptyCorners squares = [])
    (hs : emptySides squares ≠ []) :
    chooseBestMove r squares player = ((randomPick r (emptySides squares) : Nat) : Int) := by
  rw [chooseBestMove, findWinningMove_eq_selectSpec, h1,
    findWinningMove_eq_selectSpec, h2]
  rw [if_neg (by simp), if_neg (by simp), if_neg (by simpa using h4),
    if_neg (by simp [hc]), if_pos (by simpa [List.length_eq_zero] using hs)]

/-- Every index mentioned by the 8 winning lines is below 9. -/
theorem lines_indices_lt (l : Triple) (hl : l ∈ LINES) :
    l.1 < 9 ∧ l.2.1 < 9 ∧ l.2.2 < 9 := by
  fin_cases hl <;> decide

/-- On a board with no empty cell, no line yields a candidate. -/
theorem specCandidate_none_of_full (squares : Board) (player : Mark) (l : Triple)
    (hl : l ∈ LINES) (h : ∀ i, i < 9 → cellAt squares i ≠ none) :
    specCandidate squares player l = none := by
  rw [specCandidate, if_neg]
  intro hcond
  obtain ⟨e, he⟩ := List.length_eq_one.mp hcond.2
  have hmem : e ∈ [l.1, l.2.1, l.2.2].filter (fun i => cellAt squares i == none) := by
    rw [he]; exact List.mem_cons_self e []
  have h1 := (List.mem_filter.mp hmem).2
  have h2 := (List.mem_filter.mp hmem).1
  have hlt : e < 9 := by
    have hb := lines_indices_lt l hl
    simp only [List.mem_cons, List.not_mem_nil, or_false] at h2
    rcases h2 with rfl | rfl | rfl <;> tauto
  exact h e hlt (by simpa using h1)

/-- Priority 6: with no empty cell at all, the selector returns -1. -/
theorem chooseBestMove_full (r : Nat) (squares : Board) (player : Mark)
    (h : ∀ i, i < 9 → cellAt squares i ≠ none) :
    chooseBestMove r squares player = -1 := by
  have hs1 : selectSpec squares player = none := by
    rw [selectSpec, List.findSome?_eq_none_iff]
    intro l hl
    exact specCandidate_none_of_full squares player l hl h
  have hs2 : selectSpec squares (oppositeMark player) = none := by
    rw [selectSpec, List.findSome?_eq_none_iff]
    intro l hl
    exact specCandidate_none_of_full squares (oppositeMark player) l hl h
  have hcor : emptyCorners squares = [] := by
    rw [emptyCorners, List.filter_eq_nil_iff]
    intro a ha
    simp only [List.mem_cons, List.not_mem_nil, or_false] at ha
    have : a < 9 := by rcases ha with rfl | rfl | rfl | rfl <;> decide
    simpa using h a this
  have hsid : emptySides squares = [] := by
    rw [emptySides, List.filter_eq_nil_iff]
    intro a ha
    simp only [List.mem_cons, List.not_mem_nil, or_false] at ha
    have : a < 9 := by rcases ha with rfl | rfl | rfl | rfl <;> decide
    simpa using h a this
  rw [chooseBestMove, findWinningMove_eq_selectSpec, hs1,
    findWinningMove_eq_selectSpec, hs2]
  rw [if_neg (by simp), if_neg (by simp),
    if_neg (by simpa using h 4 (by decide)), if_neg (by simp [hcor]),
    if_neg (by simp [hsid])]

/-- Claim C5: `chooseBestMove` follows the exact priority order — (1) the
first cell (in canonical line order) completing a line for the mover, where
a line counts iff exactly 2 of its 3 cells hold that mark and the third is
Empty; (2) otherwise the same search for the opposing mark; (3) otherwise
the center cell 4 if empty; (4) otherwise a random empty corner of
{0,2,6,8}; (5) otherwise a random empty side of {1,3,5,7}; (6) otherwise
-1 (NoMove) when no empty cell exists. On `[X,X,_,...]` for X it returns 2,
on `[O,O,_,X,...]` for X it returns 2, and on the empty board it returns 4. -/
theorem C5_priority : ∀ (r : Nat) (squares : Board) (player : Mark),
    (∀ i : Nat, selectSpec squares player = some i →
      chooseBestMove r squares player = (i : Int)) ∧
    (selectSpec squares player = none →
      ∀ i : Nat, selectSpec squares (oppositeMark player) = some i →
        chooseBestMove r squares player = (i : Int)) ∧
    (selectSpec squares player = none →
      selectSpec squares (oppositeMark player) = none →
      cellAt squares 4 = none → chooseBestMove r squares player = 4) ∧
    (selectSpec squares player = none →
      selectSpec squares (oppositeMark player) = none →
      cellAt squares 4 ≠ none → emptyCorners squares ≠ [] →
      ∃ j, j ∈ emptyCorners squares ∧ chooseBestMove r squares player = (j : Int)) ∧
    (selectSpec squares player = none →
      selectSpec squares (oppositeMark player) = none →
      cellAt squares 4 ≠ none → emptyCorners squares = [] → emptySides squares ≠ [] →
      ∃ j, j ∈ emptySides squares ∧ chooseBestMove r squares player = (j : Int)) ∧
    ((∀ i, i < 9 → cellAt squares i ≠ none) → chooseBestMove r squares player = -1) ∧
    chooseBestMove r [some Mark.X, some Mark.X, none, none, none, none, none, none, none]
      Mark.X = 2 ∧
    chooseBestMove r [some Mark.O, some Mark.O, none, some Mark.X, none, none, none, none, none]
      Mark.X = 2 ∧
    chooseBestMove r (List.replicate 9 none) Mark.X = 4 := by
  intro r squares player
  refine ⟨fun i h => chooseBestMove_win r squares player i h,
    fun h1 i h2 => chooseBestMove_block r squares player i h1 h2,
    fun h1 h2 h4 => chooseBestMove_center r squares player h1 h2 h4,
    fun h1 h2 h4 hc => ⟨randomPick r (emptyCorners squares), randomPick_mem r _ hc,
      chooseBestMove_corner r squares player h1 h2 h4 hc⟩,
    fun h1 h2 h4 hc hs => ⟨randomPick r (emptySides squares), randomPick_mem r _ hs,
      chooseBestMove_side r squares player h1 h2 h4 hc hs⟩,
    chooseBestMove_full r squares player, ?_, ?_, ?_⟩
  · have hw : findWinningMove [some Mark.X, some Mark.X, none, none, none, none, none,
        none, none] Mark.X = 2 := by decide
    rw [chooseBestMove, hw, if_pos (by decide)]
  · have hw1 : findWinningMove [some Mark.O, some Mark.O, none, some Mark.X, none, none,
        none, none, none] Mark.X = -1 := by decide
    have hw2 : findWinningMove [some Mark.O, some Mark.O, none, some Mark.X, none, none,
        none, none, none] (oppositeMark Mark.X) = 2 := by decide
    rw [chooseBestMove, hw1, hw2, if_neg (by decide), if_pos (by decide)]
  · have hw1 : findWinningMove (List.replicate 9 none) Mark.X = -1 := by decide
    have hw2 : findWinningMove (List.replicate 9 none) (oppositeMark Mark.X) = -1 := by
      decide
    rw [chooseBestMove, hw1, hw2, if_neg (by decide), if_neg (by decide),
      if_pos (by decide)]

/-- Witness for C5 at a concrete input: the win-now branch applied to the
board `[X,X,_,...]` returns cell 2. -/
theorem C5_priority_witness :
    chooseBestMove 0 [some Mark.X, some Mark.X, none, none, none, none, none, none, none]
      Mark.X = ((2 : Nat) : Int) :=
  (C5_priority 0 [some Mark.X, some Mark.X, none, none, none, none, none, none, none]
    Mark.X).1 2 (by decide)

/-- Claim C8: whenever `chooseBestMove` returns a cell index (not -1),
that cell is Empty on the given board — it never returns an index of an
already-occupied cell. -/
theorem C8_empty_cell (r : Nat) (squares : Board) (player : Mark)
    (h : chooseBestMove r squares player ≠ -1) :
    cellAt squares (chooseBestMove r squares player).toNat = none := by
  rcases h1 : selectSpec squares player with _ | i
  · rcases h2 : selectSpec squares (oppositeMark player) with _ | i
    · by_cases h4 : cellAt squares 4 = none
      · rw [chooseBestMove_center r squares player h1 h2 h4]
        simpa using h4
      · by_cases hc : emptyCorners squares = []
        · by_cases hs : emptySides squares = []
          · exfalso
            apply h
            rw [chooseBestMove, findWinningMove_eq_selectSpec, h1,
              findWinningMove_eq_selectSpec, h2]
            rw [if_neg (by simp), if_neg (by simp), if_neg (by simpa using h4),
              if_neg (by simp [hc]), if_neg (by simp [hs])]
          · rw [chooseBestMove_side r squares player h1 h2 h4 hc hs]
            have hm := randomPick_mem r (emptySides squares) hs
            rw [emptySides] at hm
            simpa using (List.mem_filter.mp hm).2
        · rw [chooseBestMove_corner r squares player h1 h2 h4 hc]
          have hm := randomPick_mem r (emptyCorners squares) hc
          rw [emptyCorners] at hm
          simpa using (List.mem_filter.mp hm).2
    · rw [chooseBestMove_block r squares player i h1 h2]
      simpa using selectSpec_some_empty squares (oppositeMark player) i h2
  · rw [chooseBestMove_win r squares player i h1]
    simpa using selectSpec_some_empty squares player i h1

/-- Witness for C8 at a concrete input: the move chosen on the empty
board lands on an empty cell. -/
theorem C8_empty_cell_witness :
    cellAt (List.replicate 9 none)
      (chooseBestMove 0 (List.replicate 9 none) Mark.X).toNat = none :=
  C8_empty_cell 0 (List.replicate 9 none) Mark.X (by decide)

/-- Game mode, JS strings `'HUMAN'` and `'CPU'`. -/
inductive Mode where
  | HUMAN : Mode
  | CPU : Mode
deriving DecidableEq, Repr

/-- The `scores` state: `{ X: 0, O: 0, draws: 0 }`. -/
structure Scores where
  x : Nat
  o : Nat
  draws : Nat
deriving DecidableEq, Repr

/-- The `Game` component's React state. `lastDeps` is the dependency
tuple `(gameOver, winnerInfo.winner)` recorded by the score effect the
last time React ran it (compared to decide whether the effect re-runs). -/
structure GameState where
  history : List Board
  stepNumber : Nat
  xIsNext : Bool
  mode : Mode
  startingPlayer : Mark
  scores : Scores
  lastDeps : Bool × Option Mark
deriving DecidableEq, Repr

/-- `const current = history[stepNumber]`. -/
def current (st : GameState) : Board :=
  st.history.getD st.stepNumber []

/-- `const winnerInfo = calculateWinner(current)`. -/
def winnerInfo (st : GameState) : WinResult :=
  calculateWinner (current st)

/-- `const isBoardFull = current.every((c) => c !== null)`. -/
def isBoardFull (st : GameState) : Bool :=
  (current st).all (fun c => c.isSome)

/-- `const gameOver = winnerInfo.winner !== null || isBoardFull`. -/
def gameOver (st : GameState) : Bool :=
  (winnerInfo st).winner.isSome || isBoardFull st

/-- `const isCpuTurn = mode === 'CPU' && !gameOver && ((startingPlayer ===
'O' && xIsNext) || (startingPlayer === 'X' && !xIsNext))`. -/
def isCpuTurn (st : GameState) : Bool :=
  st.mode == Mode.CPU && !(gameOver st) &&
    ((st.startingPlayer == Mark.O && st.xIsNext) ||
     (st.startingPlayer == Mark.X && !st.xIsNext))

/-- The `disabled` prop passed to `Board`: `gameOver || (mode === 'CPU' &&
!isCpuTurn && ((startingPlayer === 'X' && !xIsNext) || (startingPlayer ===
'O' && xIsNext)))`. -/
def boardDisabled (st : GameState) : Bool :=
  gameOver st ||
    (st.mode == Mode.CPU && !(isCpuTurn st) &&
      ((st.startingPlayer == Mark.X && !st.xIsNext) ||
       (st.startingPlayer == Mark.O && st.xIsNext)))

/-- `handlePlay(index)` from App.js: rejected when the cell is occupied or
the game is over; otherwise truncate the history after the current step,
append the updated board, move the pointer to the end, toggle the turn. -/
def handlePlay (i : Nat) (st : GameState) : GameState :=
  if (cellAt (current st) i).isSome || gameOver st then st
  else
    let next := (current st).set i (some (if st.xIsNext then Mark.X else Mark.O))
    let newHistory := (st.history.take (st.stepNumber + 1)) ++ [next]
    { st with
      history := newHistory
      stepNumber := newHistory.length - 1
      xIsNext := !st.xIsNext }

/-- A click on square `i`: the `Square` button is disabled when the board
is disabled or the cell is filled (a disabled button swallows the click);
otherwise the click runs `handlePlay(i)`. -/
def applyMove (i : Nat) (st : GameState) : GameState :=
  if boardDisabled st || (cellAt (current st) i).isSome then st else handlePlay i st

/-- `jumpTo(step)` from App.js: sets the pointer unconditionally and
recomputes the turn from the step parity and the starting player. -/
def jumpTo (step : Nat) (st : GameState) : GameState :=
  { st with
    stepNumber := step
    xIsNext := if step % 2 == 0 then st.startingPlayer == Mark.X
               else st.startingPlayer != Mark.X }

/-- `Array(9).fill(null)`. -/
def emptyBoard : Board := List.replicate 9 none

/-- `startNewRound(nextStarter)` from App.js. -/
def startNewRound (nextStarter : Mark) (st : GameState) : GameState :=
  { st with
    history := [emptyBoard]
    stepNumber := 0
    xIsNext := nextStarter == Mark.X
    startingPlayer := nextStarter }

/-- `resetMatch()` from App.js: zero the scores, then start a new round
with X as starter. -/
def resetMatch (st : GameState) : GameState :=
  startNewRound Mark.X { st with scores := { x := 0, o := 0, draws := 0 } }

/-- The `onModeChange`/`ModeToggle` handler: `setMode(m)`. -/
def setMode (m : Mode) (st : GameState) : GameState :=
  { st with mode := m }

/-- The body of the score-update effect: `X`/`O` wins bump that column,
anything else bumps `draws`. -/
def bumpScores (sc : Scores) (w : Option Mark) : Scores :=
  match w with
  | some Mark.X => { sc with x := sc.x + 1 }
  | some Mark.O => { sc with o := sc.o + 1 }
  | none => { sc with draws := sc.draws + 1 }

/-- React's processing of the score `useEffect` after a render: the effect
re-runs exactly when `(gameOver, winnerInfo.winner)` differs from the deps
recorded at its previous run; its body returns early unless `gameOver`. -/
def runScoreEffect (st : GameState) : GameState :=
  { st with
    scores :=
      if (gameOver st, (winnerInfo st).winner) = st.lastDeps then st.scores
      else if gameOver st then bumpScores st.scores (winnerInfo st).winner
      else st.scores
    lastDeps := (gameOver st, (winnerInfo st).winner) }

/-- The intents the presentation layer can issue. -/
inductive Intent where
  | place : Nat → Intent
  | jump : Nat → Intent
  | newRound : Mark → Intent
  | swapStarter : Intent
  | reset : Intent
  | switchMode : Mode → Intent

/-- The state update each intent performs (before effects run). -/
def rawIntent : Intent → GameState → GameState
  | Intent.place i, st => applyMove i st
  | Intent.jump s, st => jumpTo s st
  | Intent.newRound m, st => startNewRound m st
  | Intent.swapStarter, st => startNewRound (oppositeMark st.startingPlayer) st
  | Intent.reset, st => resetMatch st
  | Intent.switchMode m, st => setMode m st

/-- One full step: apply the intent, then let React re-run the score
effect on the rendered state. -/
def stepIntent (it : Intent) (st : GameState) : GameState :=
  runScoreEffect (rawIntent it st)

/-- Run a sequence of intents. -/
def runIntents (its : List Intent) (st : GameState) : GameState :=
  match its with
  | [] => st
  | it :: rest => runIntents rest (stepIntent it st)

/-- The mounted component: `useState` initial values, with the score
effect having run once on mount (recording deps `(false, null)`). -/
def init : GameState :=
  { history := [emptyBoard]
    stepNumber := 0
    xIsNext := true
    mode := Mode.HUMAN
    startingPlayer := Mark.X
    scores := { x := 0, o := 0, draws := 0 }
    lastDeps := (false, none) }

/-- The mark placed next (`nextPlayer` in the status line). -/
def turnOf (st : GameState) : Mark :=
  if st.xIsNext then Mark.X else Mark.O

/-- States reachable from the mounted component through the exposed
operations: moves on cells 0..8, in-range history jumps, new round, swap
starter, match reset, and mode switch. -/
inductive Reachable : GameState → Prop where
  | init : Reachable init
  | place (st : GameState) (i : Nat) : Reachable st → i < 9 →
      Reachable (stepIntent (Intent.place i) st)
  | jump (st : GameState) (s : Nat) : Reachable st → s < st.history.length →
      Reachable (stepIntent (Intent.jump s) st)
  | newRound (st : GameState) (m : Mark) : Reachable st →
      Reachable (stepIntent (Intent.newRound m) st)
  | swapStarter (st : GameState) : Reachable st →
      Reachable (stepIntent Intent.swapStarter st)
  | reset (st : GameState) : Reachable st →
      Reachable (stepIntent Intent.reset st)
  | switchMode (st : GameState) (m : Mode) : Reachable st →
      Reachable (stepIntent (Intent.switchMode m) st)

/-- Inductive invariant: the pointer is in range and the turn flag agrees
with the parity rule (`xIsNext` iff step parity matches the starter). -/
def StateInv (st : GameState) : Prop :=
  st.stepNumber < st.history.length ∧
    (st.xIsNext = true ↔ (st.stepNumber % 2 = 0 ↔ st.startingPlayer = Mark.X))

/-- The Board's `disabled` expression collapses to `gameOver`: the
CPU-turn disjunct is unsatisfiable (when it is the CPU's turn `isCpuTurn`
is true, and when it is not, the inner parity test is false). -/
theorem boardDisabled_eq_gameOver (st : GameState) :
    boardDisabled st = gameOver st := by
  unfold boardDisabled isCpuTurn
  cases hg : gameOver st <;> cases hm : st.mode <;> cases hsp : st.startingPlayer <;>
    cases hx : st.xIsNext <;> rfl

/-- `handlePlay` is a no-op on an occupied cell or after the game ends. -/
theorem handlePlay_rejected (i : Nat) (st : GameState)
    (h : ((cellAt (current st) i).isSome || gameOver st) = true) :
    handlePlay i st = st := by
  rw [handlePlay, if_pos h]

/-- The accepted branch of `handlePlay`, written out. -/
theorem handlePlay_accepted (i : Nat) (st : GameState)
    (hempty : (cellAt (current st) i).isSome = false)
    (hover : gameOver st = false) :
    handlePlay i st = { st with
      history := st.history.take (st.stepNumber + 1) ++
        [(current st).set i (some (if st.xIsNext then Mark.X else Mark.O))]
      stepNumber := (st.history.take (st.stepNumber + 1) ++
        [(current st).set i (some (if st.xIsNext then Mark.X else Mark.O))]).length - 1
      xIsNext := !st.xIsNext } := by
  rw [handlePlay, if_neg (by simp [hempty, hover])]

/-- On an empty cell of a live round, a click reaches `handlePlay`. -/
theorem applyMove_accepted (i : Nat) (st : GameState)
    (hempty : (cellAt (current st) i).isSome = false)
    (hover : gameOver st = false) :
    applyMove i st = handlePlay i st := by
  rw [applyMove, if_neg (by simp [boardDisabled_eq_gameOver, hover, hempty])]

/-- A move (accepted or rejected) preserves the invariant. -/
theorem stateInv_place (st : GameState) (i : Nat) (h : StateInv st) :
    StateInv (stepIntent (Intent.place i) st) := by
  have hstep : stepIntent (Intent.place i) st = runScoreEffect (applyMove i st) := rfl
  by_cases hg : ((cellAt (current st) i).isSome || gameOver st) = true
  · have hrej : applyMove i st = st := by
      rw [applyMove]
      split
      · rfl
      · exact handlePlay_rejected i st hg
    rw [hstep, hrej]
    exact h
  · simp only [Bool.or_eq_true, not_or, Bool.not_eq_true] at hg
    obtain ⟨hempty, hover⟩ := hg
    rw [hstep, applyMove_accepted i st hempty hover, handlePlay_accepted i st hempty hover]
    have hlen : (st.history.take (st.stepNumber + 1)).length = st.stepNumber + 1 := by
      rw [List.length_take]
      have := h.1
      omega
    refine ⟨?_, ?_⟩
    · show (st.history.take (st.stepNumber + 1) ++
          [(current st).set i (some (if st.xIsNext then Mark.X else Mark.O))]).length - 1 <
        (st.history.take (st.stepNumber + 1) ++
          [(current st).set i (some (if st.xIsNext then Mark.X else Mark.O))]).length
      rw [List.length_append, hlen]
      omega
    · show (!st.xIsNext) = true ↔
        (((st.history.take (st.stepNumber + 1) ++
          [(current st).set i (some (if st.xIsNext then Mark.X else Mark.O))]).length - 1) % 2
            = 0 ↔ st.startingPlayer = Mark.X)
      rw [List.length_append, hlen, List.length_singleton]
      rcases h with ⟨-, hp⟩
      cases hx : st.xIsNext <;> cases hsp : st.startingPlayer <;>
        simp [hx, hsp] at hp ⊢ <;> omega

/-- An in-range jump preserves the invariant. -/
theorem stateInv_jump (st : GameState) (s : Nat) (hs : s < st.history.length) :
    StateInv (stepIntent (Intent.jump s) st) := by
  refine ⟨hs, ?_⟩
  show (if s % 2 == 0 then st.startingPlayer == Mark.X
        else st.startingPlayer != Mark.X) = true ↔
    (s % 2 = 0 ↔ st.startingPlayer = Mark.X)
  by_cases hp : s % 2 = 0
  · rw [if_pos (by simpa using hp)]
    simp [hp]
  · rw [if_neg (by simpa using hp)]
    simp [hp, bne_iff_ne]

/-- Starting a new round establishes the invariant. -/
theorem stateInv_newRound (st : GameState) (m : Mark) :
    StateInv (stepIntent (Intent.newRound m) st) := by
  refine ⟨Nat.one_pos, ?_⟩
  show (m == Mark.X) = true ↔ (0 % 2 = 0 ↔ m = Mark.X)
  cases m <;> simp

/-- Swapping the starter establishes the invariant. -/
theorem stateInv_swapStarter (st : GameState) :
    StateInv (stepIntent Intent.swapStarter st) := by
  refine ⟨Nat.one_pos, ?_⟩
  show (oppositeMark st.startingPlayer == Mark.X) = true ↔
    (0 % 2 = 0 ↔ oppositeMark st.startingPlayer = Mark.X)
  cases hsp : st.startingPlayer <;> simp [oppositeMark]

/-- Resetting the match establishes the invariant. -/
theorem stateInv_reset (st : GameState) :
    StateInv (stepIntent Intent.reset st) := by
  refine ⟨Nat.one_pos, ?_⟩
  show (Mark.X == Mark.X) = true ↔ (0 % 2 = 0 ↔ Mark.X = Mark.X)
  simp

/-- Switching mode preserves the invariant. -/
theorem stateInv_switchMode (st : GameState) (m : Mode) (h : StateInv st) :
    StateInv (stepIntent (Intent.switchMode m) st) :=
  h

/-- The invariant holds in every reachable state. -/
theorem stateInv_of_reachable (st : GameState) (h : Reachable st) : StateInv st := by
  induction h with
  | init => exact ⟨Nat.one_pos, by simp [init]⟩
  | place st i hr hi ih => exact stateInv_place st i ih
  | jump st s hr hs ih => exact stateInv_jump st s hs
  | newRound st m hr ih => exact stateInv_newRound st m
  | swapStarter st hr ih => exact stateInv_swapStarter st
  | reset st hr ih => exact stateInv_reset st
  | switchMode st m hr ih => exact stateInv_switchMode st m ih

/-- Claim C7: in every state reachable through the exposed operations
(moves, in-range jumps, new round, swap starter, reset, mode switch), the
current turn is the pure parity function of the starting player and the
pointer: `startingPlayer` when `stepNumber` is even, the opposite mark
when odd — in particular right after any reachable `jumpTo`. -/
theorem C7_turn_parity (st : GameState) (h : Reachable st) :
    turnOf st = (if st.stepNumber % 2 = 0 then st.startingPlayer
                 else oppositeMark st.startingPlayer) := by
  obtain ⟨-, hp⟩ := stateInv_of_reachable st h
  rw [turnOf]
  cases hx : st.xIsNext <;> cases hsp : st.startingPlayer <;>
    rw [hx, hsp] at hp <;> by_cases he : st.stepNumber % 2 = 0 <;>
    simp_all [oppositeMark]

/-- Witness for C7 at a concrete reachable state: after X moves on cell 0,
the turn parity rule holds. -/
theorem C7_turn_parity_witness :
    turnOf (stepIntent (Intent.place 0) init) =
      (if (stepIntent (Intent.place 0) init).stepNumber % 2 = 0
       then (stepIntent (Intent.place 0) init).startingPlayer
       else oppositeMark (stepIntent (Intent.place 0) init).startingPlayer) :=
  C7_turn_parity (stepIntent (Intent.place 0) init)
    (Reachable.place init 0 Reachable.init (by decide))

/-- When the rendered state is not terminal the effect body returns early,
leaving the scores unchanged. -/
theorem runScoreEffect_scores_of_not_over (st : GameState) (hg : gameOver st = false) :
    (runScoreEffect st).scores = st.scores := by
  show (if (gameOver st, (winnerInfo st).winner) = st.lastDeps then st.scores
        else if gameOver st then bumpScores st.scores (winnerInfo st).winner
        else st.scores) = st.scores
  rw [hg]
  split
  · rfl
  · rw [if_neg (by simp)]

/-- Claim C6: a successful move from step `s` (pointer in range, round not
over, cell empty) makes the history length `s+2` — entries `0..s` are kept
unchanged, everything beyond `s+1` is discarded, the updated board is
appended as entry `s+1`, and the pointer becomes `s+1`. -/
theorem C6_branch_and_overwrite (st : GameState) (i : Nat)
    (hstep : st.stepNumber < st.history.length)
    (hover : gameOver st = false)
    (hempty : (cellAt (current st) i).isSome = false) :
    (stepIntent (Intent.place i) st).history.length = st.stepNumber + 2 ∧
    (stepIntent (Intent.place i) st).history.take (st.stepNumber + 1) =
      st.history.take (st.stepNumber + 1) ∧
    (stepIntent (Intent.place i) st).history.getD (st.stepNumber + 1) [] =
      (current st).set i (some (if st.xIsNext then Mark.X else Mark.O)) ∧
    (stepIntent (Intent.place i) st).stepNumber = st.stepNumber + 1 := by
  have h0 : stepIntent (Intent.place i) st = runScoreEffect (applyMove i st) := rfl
  rw [h0, applyMove_accepted i st hempty hover, handlePlay_accepted i st hempty hover]
  have hlen : (st.history.take (st.stepNumber + 1)).length = st.stepNumber + 1 := by
    rw [List.length_take]
    omega
  refine ⟨?_, ?_, ?_, ?_⟩
  · show (st.history.take (st.stepNumber + 1) ++
        [(current st).set i (some (if st.xIsNext then Mark.X else Mark.O))]).length =
      st.stepNumber + 2
    rw [List.length_append, hlen, List.length_singleton]
  · show (st.history.take (st.stepNumber + 1) ++
        [(current st).set i (some (if st.xIsNext then Mark.X else Mark.O))]).take
          (st.stepNumber + 1) =
      st.history.take (st.stepNumber + 1)
    exact List.take_left' hlen
  · show (st.history.take (st.stepNumber + 1) ++
        [(current st).set i (some (if st.xIsNext then Mark.X else Mark.O))]).getD
          (st.stepNumber + 1) [] =
      (current st).set i (some (if st.xIsNext then Mark.X else Mark.O))
    rw [List.getD_eq_getElem?_getD, List.getElem?_append_right (by rw [hlen]), hlen]
    simp
  · show (st.history.take (st.stepNumber + 1) ++
        [(current st).set i (some (if st.xIsNext then Mark.X else Mark.O))]).length - 1 =
      st.stepNumber + 1
    rw [List.length_append, hlen, List.length_singleton]
    omega

/-- A state rewound to step 0 of a 2-entry history (X already played on
cell 0 and the viewer jumped back to the start). -/
def c6Start : GameState :=
  { history := [emptyBoard, emptyBoard.set 0 (some Mark.X)]
    stepNumber := 0
    xIsNext := true
    mode := Mode.HUMAN
    startingPlayer := Mark.X
    scores := { x := 0, o := 0, draws := 0 }
    lastDeps := (false, none) }

/-- Witness for C6 at a concrete input: playing cell 4 from the rewound
state overwrites the old future. -/
theorem C6_witness :
    (stepIntent (Intent.place 4) c6Start).history.length = c6Start.stepNumber + 2 ∧
    (stepIntent (Intent.place 4) c6Start).history.take (c6Start.stepNumber + 1) =
      c6Start.history.take (c6Start.stepNumber + 1) ∧
    (stepIntent (Intent.place 4) c6Start).history.getD (c6Start.stepNumber + 1) [] =
      (current c6Start).set 4 (some (if c6Start.xIsNext then Mark.X else Mark.O)) ∧
    (stepIntent (Intent.place 4) c6Start).stepNumber = c6Start.stepNumber + 1 :=
  C6_branch_and_overwrite c6Start 4 (by decide) (by decide) (by decide)

/-- Claim C9: from any state, `startNewRound(starter)` preserves the
scores while resetting the history to a single empty board with pointer 0
and `startingPlayer = starter`; `resetMatch()` zeroes the scores and
yields the empty board with `startingPlayer = X`. -/
theorem C9_round_and_match_reset (st : GameState) (starter : Mark) :
    (stepIntent (Intent.newRound starter) st).scores = st.scores ∧
    (stepIntent (Intent.newRound starter) st).history = [emptyBoard] ∧
    (stepIntent (Intent.newRound starter) st).stepNumber = 0 ∧
    (stepIntent (Intent.newRound starter) st).startingPlayer = starter ∧
    (stepIntent Intent.reset st).scores = { x := 0, o := 0, draws := 0 } ∧
    (stepIntent Intent.reset st).history = [emptyBoard] ∧
    (stepIntent Intent.reset st).stepNumber = 0 ∧
    (stepIntent Intent.reset st).startingPlayer = Mark.X := by
  refine ⟨?_, rfl, rfl, rfl, ?_, rfl, rfl, rfl⟩
  · exact runScoreEffect_scores_of_not_over (startNewRound starter st) rfl
  · exact runScoreEffect_scores_of_not_over (resetMatch st) rfl

/-- Claim C1 fails on the code: after X wins (score X = 1), jumping to
step 0 and back to the terminal step 5 re-runs the score effect (its deps
`(gameOver, winner)` changed both times) and increments X's score again
within the same round, to 2. The claim says the scorer fires exactly once
per round and a jump round-trip never changes the scores. -/
theorem C1_score_double_counts_on_jump_back :
    (runIntents [Intent.place 0, Intent.place 3, Intent.place 1, Intent.place 4,
      Intent.place 2] init).scores.x = 1 ∧
    (runIntents [Intent.place 0, Intent.place 3, Intent.place 1, Intent.place 4,
      Intent.place 2, Intent.jump 0, Intent.jump 5] init).scores.x = 2 := by
  decide

/-- Claim C2 fails on the code: in CPU mode with X starting, after X
plays cell 0 it is the CPU's turn (`isCpuTurn` is true, round live), yet a
click on the empty cell 1 is not rejected — `handlePlay` has no turn
check and the Board's `disabled` expression reduces to `gameOver` — so
the human's click places the CPU's mark O. The claim says such a move
must be a silent no-op. -/
theorem C2_cpu_turn_click_not_rejected :
    isCpuTurn (runIntents [Intent.switchMode Mode.CPU, Intent.place 0] init) = true ∧
    gameOver (runIntents [Intent.switchMode Mode.CPU, Intent.place 0] init) = false ∧
    cellAt (current (runIntents [Intent.switchMode Mode.CPU, Intent.place 0] init)) 1 =
      none ∧
    (stepIntent (Intent.place 1)
      (runIntents [Intent.switchMode Mode.CPU, Intent.place 0] init)).history.length = 3 ∧
    cellAt (current (stepIntent (Intent.place 1)
      (runIntents [Intent.switchMode Mode.CPU, Intent.place 0] init))) 1 = some Mark.O := by
  decide

/-- Counterexample to C3 as stated: `jumpTo(5)` from the initial state
(history length 1) is neither rejected nor clamped — the pointer becomes
5, violating `stepNumber < history length`. -/
theorem C3_out_of_range_jump_not_rejected :
    (stepIntent (Intent.jump 5) init).stepNumber = 5 ∧
    init.history.length = 1 ∧
    ¬((stepIntent (Intent.jump 5) init).stepNumber <
      (stepIntent (Intent.jump 5) init).history.length) := by
  decide

/-- Claim C3, amended: `jumpTo(step)` never alters the stored history
entries and always sets the pointer to exactly `step`; for in-range steps
the pointer therefore still satisfies `stepNumber < history length`, but
out-of-range requests are not rejected or clamped. -/
theorem C3_jump_amended (st : GameState) (step : Nat) :
    (stepIntent (Intent.jump step) st).history = st.history ∧
    (stepIntent (Intent.jump step) st).stepNumber = step ∧
    (step < st.history.length →
      (stepIntent (Intent.jump step) st).stepNumber <
        (stepIntent (Intent.jump step) st).history.length) :=
  ⟨rfl, rfl, fun h => h⟩

/-- Witness for the amended C3 at a concrete input: an in-range jump to
step 0 keeps the pointer in range. -/
theorem C3_jump_amended_witness :
    (stepIntent (Intent.jump 0) init).stepNumber <
      (stepIntent (Intent.jump 0) init).history.length :=
  (C3_jump_amended init 0).2.2 (by decide)
